import Mathlib

/-!
Shallow embedding of the manzana repository's core subsystems:
the Afterburner statistics projection (src/afterburner.rs), the IOKit
property parse (src/ffi/iokit.rs), the owned-handle release lifecycle
(src/ffi/iokit.rs), and the unified-memory buffer allocator
(src/unified_memory.rs).  Rust f64 values are modelled as rationals,
u32/usize as Nat with explicit modular reduction where overflow matters.
-/

namespace Manzana

/-- Hardware subsystems, from src/error.rs Subsystem. -/
inductive Subsystem
  | afterburner
  | neuralEngine
  | metal
  | secureEnclave
  | unifiedMemory
deriving DecidableEq

/-- Error taxonomy, from src/error.rs Error (closed set of variants). -/
inductive Error
  | notAvailable (subsystem : Subsystem)
  | ioKit (code : Int) (message : String)
  | metal (message : String)
  | coreMl (message : String)
  | security (code : Int)
  | invalidInput (reason : String)
  | timeout (duration_ms : Nat)
  | permissionDenied (operation : String)
  | notFound (resource : String)
  | internal (details : String)
deriving DecidableEq

/-- ProRes codec types, from src/afterburner.rs ProResCodec. -/
inductive ProResCodec
  | prores422
  | prores422hq
  | prores422lt
  | prores422proxy
  | prores4444
  | prores4444xq
  | proresRaw
  | proresRawHq
deriving DecidableEq

/-- Raw statistics from the FPGA, from src/ffi/iokit.rs AfterburnerRawStats.
f64 fields are modelled as rationals, u32 fields as Nat. -/
structure AfterburnerRawStats where
  streams_active : Nat
  streams_capacity : Nat
  utilization : ℚ
  throughput_fps : ℚ
  temperature : Option ℚ
  power : Option ℚ
deriving DecidableEq

/-- The derived Default for AfterburnerRawStats (all fields zero / None). -/
def AfterburnerRawStats.default : AfterburnerRawStats :=
  { streams_active := 0
    streams_capacity := 0
    utilization := 0
    throughput_fps := 0
    temperature := none
    power := none }

/-- Public statistics type, from src/afterburner.rs AfterburnerStats.
The codec breakdown HashMap is modelled as an association list. -/
structure AfterburnerStats where
  streams_active : Nat
  streams_capacity : Nat
  utilization_percent : ℚ
  throughput_fps : ℚ
  temperature_celsius : Option ℚ
  power_watts : Option ℚ
  codec_breakdown : List (ProResCodec × Nat)
deriving DecidableEq

/-- Rust f64 clamp: below the range gives the lower bound, above gives the
upper bound, otherwise the value itself. -/
def f64_clamp (x lo hi : ℚ) : ℚ :=
  if x < lo then lo else if hi < x then hi else x

/-- src/afterburner.rs convert_raw_stats: clamp utilization to [0,100],
floor throughput at 0, filter temperature by the half-open range
0.0..150.0 and power by 0.0..500.0 (Rust Range contains is lo ≤ x < hi),
empty codec breakdown. -/
def convert_raw_stats (raw : AfterburnerRawStats) : AfterburnerStats :=
  { streams_active := raw.streams_active
    streams_capacity := raw.streams_capacity
    utilization_percent := f64_clamp raw.utilization 0 100
    throughput_fps := max raw.throughput_fps 0
    temperature_celsius := raw.temperature.filter fun t => decide (0 ≤ t ∧ t < 150)
    power_watts := raw.power.filter fun p => decide (0 ≤ p ∧ p < 500)
    codec_breakdown := [] }

/-- src/afterburner.rs AfterburnerStats.is_active: streams_active > 0. -/
def AfterburnerStats.is_active (s : AfterburnerStats) : Bool :=
  decide (0 < s.streams_active)

/-- src/afterburner.rs AfterburnerStats.capacity_used_percent:
0 when capacity is 0, else active/capacity*100. -/
def AfterburnerStats.capacity_used_percent (s : AfterburnerStats) : ℚ :=
  if s.streams_capacity = 0 then 0
  else ((s.streams_active : ℚ) / (s.streams_capacity : ℚ)) * 100

/-- src/afterburner.rs AfterburnerStats.is_temperature_safe:
map the optional temperature to (t < 100). -/
def AfterburnerStats.is_temperature_safe (s : AfterburnerStats) : Option Bool :=
  s.temperature_celsius.map fun t => decide (t < 100)

/-- A raw snapshot whose temperature and power both read exactly 0. -/
def rawBoundaryZero : AfterburnerRawStats :=
  { AfterburnerRawStats.default with temperature := some 0, power := some 0 }

/-- A raw snapshot at the upper boundaries t = 150, p = 500. -/
def rawBoundaryHigh : AfterburnerRawStats :=
  { AfterburnerRawStats.default with temperature := some 150, power := some 500 }

/-- A raw snapshot with utilization 150 (over range). -/
def rawUtilHigh : AfterburnerRawStats :=
  { AfterburnerRawStats.default with utilization := 150 }

/-- A raw snapshot with utilization -10 (under range). -/
def rawUtilLow : AfterburnerRawStats :=
  { AfterburnerRawStats.default with utilization := -10 }

/-- The spec's concrete capacity example: 10 active of 23 capacity. -/
def statsTenOfTwentyThree : AfterburnerStats :=
  { streams_active := 10
    streams_capacity := 23
    utilization_percent := 0
    throughput_fps := 0
    temperature_celsius := none
    power_watts := none
    codec_breakdown := [] }

/-- A CFNumber value: its optional i32 view and optional f64 view,
modelling core_foundation CFNumber.to_i32 / to_f64. -/
structure CFNumber where
  to_i32 : Option Int
  to_f64 : Option ℚ
deriving DecidableEq

/-- A CFType dictionary value: either a CFNumber or some other CF type
(for which the downcast to CFNumber fails). -/
inductive CFValue
  | number (n : CFNumber)
  | other
deriving DecidableEq

/-- The IOKit registry property dictionary CFDictionary of CFString keys
and CFType values, modelled as an association list. -/
abbrev CFDict := List (String × CFValue)

/-- src/ffi/iokit.rs get_u32_property: look up the key, downcast to
CFNumber, take the i32 view, and convert to u32 (which succeeds exactly
when the i32 value is nonnegative). -/
def get_u32_property (dict : CFDict) (key : String) : Option Nat :=
  (dict.lookup key).bind fun value =>
    match value with
    | CFValue.number n => n.to_i32.bind fun v => if 0 ≤ v then some v.toNat else none
    | CFValue.other => none

/-- src/ffi/iokit.rs get_f64_property: look up the key, downcast to
CFNumber, take the f64 view. -/
def get_f64_property (dict : CFDict) (key : String) : Option ℚ :=
  (dict.lookup key).bind fun value =>
    match value with
    | CFValue.number n => n.to_f64
    | CFValue.other => none

/-- src/ffi/iokit.rs parse_afterburner_properties: each field falls back
independently; stream counts default to 0 and 23, float fields to 0.0,
temperature and power stay optional. -/
def parse_afterburner_properties (properties : CFDict) : AfterburnerRawStats :=
  { streams_active := (get_u32_property properties "StreamsActive").getD 0
    streams_capacity := (get_u32_property properties "StreamsCapacity").getD 23
    utilization := (get_f64_property properties "Utilization").getD 0
    throughput_fps := (get_f64_property properties "ThroughputFPS").getD 0
    temperature := get_f64_property properties "Temperature"
    power := get_f64_property properties "PowerWatts" }

/-- Handle lifecycle state for the RAII service wrapper: a live handle
holding the raw io_service_t, or a dropped one. -/
inductive HandleState
  | live (raw : Nat)
  | dropped (raw : Nat)
deriving DecidableEq

/-- An instrumented configuration: the handle state together with the
number of IOObjectRelease calls fired so far. -/
structure HandleExec where
  st : HandleState
  releases : Nat
deriving DecidableEq

/-- src/ffi/iokit.rs Drop for AfterburnerService: IOObjectRelease fires
iff the raw service reference is nonzero. -/
def drop_release_count (raw : Nat) (count : Nat) : Nat :=
  if raw ≠ 0 then count + 1 else count

/-- The handle's step relation: a borrow-based query leaves the state
unchanged; the scope-end drop moves to the dropped state, firing the
release exactly when the raw reference is nonzero.  A dropped handle has
no further transitions (ownership is consumed). -/
inductive HandleStep : HandleExec → HandleExec → Prop
  | query (raw c : Nat) :
      HandleStep ⟨HandleState.live raw, c⟩ ⟨HandleState.live raw, c⟩
  | drop (raw c : Nat) :
      HandleStep ⟨HandleState.live raw, c⟩
        ⟨HandleState.dropped raw, drop_release_count raw c⟩

/-- src/ffi/iokit.rs find_service_by_name: the registry lookup is
modelled as a function from class name to an optional raw service id
(none models a null matching dictionary); a zero service id yields None,
otherwise a live handle owning the nonzero id. -/
def find_service_by_name (reg : String → Option Nat) (name : String) :
    Option HandleState :=
  match reg name with
  | none => none
  | some service =>
      if service = 0 then none else some (HandleState.live service)

/-- src/ffi/iokit.rs AFTERBURNER_SERVICE_NAMES. -/
def AFTERBURNER_SERVICE_NAMES : List String :=
  ["AppleProResAccelerator", "AppleAfterburner", "AFBAccelerator"]

/-- src/ffi/iokit.rs find_afterburner_service: first candidate class
name that matches. -/
def find_afterburner_service (reg : String → Option Nat) : Option HandleState :=
  AFTERBURNER_SERVICE_NAMES.findSome? (find_service_by_name reg)

/-- src/unified_memory.rs PAGE_SIZE. -/
def PAGE_SIZE : Nat := 4096

/-- src/unified_memory.rs MAX_ALLOCATION (16 GiB). -/
def MAX_ALLOCATION : Nat := 17179869184

/-- The usize modulus on the 64-bit targets this crate supports. -/
def USIZE_MOD : Nat := 2 ^ 64

/-- isize::MAX on 64-bit targets. -/
def ISIZE_MAX : Nat := 2 ^ 63 - 1

/-- std::alloc::Layout: the allocation descriptor (size and alignment)
captured at allocation time and carried with the buffer. -/
structure Layout where
  size : Nat
  align : Nat
deriving DecidableEq

/-- std::alloc::Layout::from_size_align: requires a nonzero power-of-two
alignment and a size that stays within isize::MAX after rounding up to
the alignment; returns none on violation (mapped to Internal by new). -/
def Layout.from_size_align (size align : Nat) : Option Layout :=
  if align ≠ 0 ∧ align &&& (align - 1) = 0 ∧ size ≤ ISIZE_MAX - (align - 1) then
    some { size := size, align := align }
  else none

/-- The global allocator's answer for one request: the start address
(0 models a null return) and the initial, unspecified contents of the
allocated region, indexed from the start address. -/
structure AllocResult where
  addr : Nat
  mem : Nat → Nat

/-- The underlying allocator, modelled as a function of the layout. -/
abbrev Allocator := Layout → AllocResult

/-- src/unified_memory.rs UmaBuffer: start address, logical length, the
captured layout, and the contents of the allocated region. -/
structure UmaBuffer where
  addr : Nat
  len : Nat
  layout : Layout
  mem : Nat → Nat

/-- The page-rounding expression from UmaBuffer::new:
(len + PAGE_SIZE - 1) & !(PAGE_SIZE - 1) on usize. -/
def align_to_page (len : Nat) : Nat :=
  ((len + (PAGE_SIZE - 1)) % USIZE_MOD) &&& (USIZE_MOD - PAGE_SIZE)

/-- src/unified_memory.rs UmaBuffer::new: reject 0 and oversize lengths
with InvalidInput, round the length up to a page multiple, build the
page-aligned layout (failure maps to Internal), request memory (null
maps to Internal), and record length, layout, and address. -/
def UmaBuffer.new (alloc_fn : Allocator) (len : Nat) : Except Error UmaBuffer :=
  if len = 0 then
    Except.error (Error.invalidInput "buffer length cannot be zero")
  else if MAX_ALLOCATION < len then
    Except.error (Error.invalidInput "allocation size exceeds maximum")
  else
    match Layout.from_size_align (align_to_page len) PAGE_SIZE with
    | none => Except.error (Error.internal "invalid layout")
    | some layout =>
        if (alloc_fn layout).addr = 0 then
          Except.error (Error.internal "memory allocation failed")
        else
          Except.ok
            { addr := (alloc_fn layout).addr
              len := len
              layout := layout
              mem := (alloc_fn layout).mem }

/-- src/unified_memory.rs UmaBuffer::zeroed: new, then write_bytes of 0
over exactly buffer.len bytes from the start of the buffer. -/
def UmaBuffer.zeroed (alloc_fn : Allocator) (len : Nat) : Except Error UmaBuffer :=
  match UmaBuffer.new alloc_fn len with
  | Except.error e => Except.error e
  | Except.ok buffer =>
      Except.ok
        { buffer with mem := fun i => if i < buffer.len then 0 else buffer.mem i }

/-- src/unified_memory.rs UmaBuffer::is_empty. -/
def UmaBuffer.is_empty (b : UmaBuffer) : Bool :=
  b.len == 0

/-- src/unified_memory.rs UmaBuffer::allocated_size: the layout size. -/
def UmaBuffer.allocated_size (b : UmaBuffer) : Nat :=
  b.layout.size

/-- src/unified_memory.rs UmaBuffer::is_aligned: address mod page size. -/
def UmaBuffer.is_aligned (b : UmaBuffer) : Bool :=
  b.addr % PAGE_SIZE == 0

/-- src/unified_memory.rs UmaBuffer::as_slice: the logical-length view
of the contents. -/
def UmaBuffer.as_slice (b : UmaBuffer) : List Nat :=
  (List.range b.len).map b.mem

/-- src/unified_memory.rs UmaBuffer::copy_from_slice: InvalidInput when
the source is longer than the logical length (buffer untouched), else
copy the source over the first src.length bytes. -/
def UmaBuffer.copy_from_slice (b : UmaBuffer) (src : List Nat) :
    Except Error Unit × UmaBuffer :=
  if b.len < src.length then
    (Except.error (Error.invalidInput "source length exceeds buffer length"), b)
  else
    (Except.ok (),
      { b with mem := fun i => if i < src.length then src.getD i 0 else b.mem i })

/-- Whether an allocation result is a success. -/
def newIsOk : Except Error UmaBuffer → Bool
  | Except.ok _ => true
  | Except.error _ => false

/-- Whether an allocation result is an InvalidInput failure. -/
def newIsInvalidInput : Except Error UmaBuffer → Bool
  | Except.error (Error.invalidInput _) => true
  | _ => false

/-- Whether a copy result is an InvalidInput failure. -/
def copyIsInvalidInput : Except Error Unit → Bool
  | Except.error (Error.invalidInput _) => true
  | _ => false

/-- Masking a 64-bit value with !(2^12 - 1) clears its low 12 bits. -/
theorem land_high_mask (x : Nat) (hx : x < 2 ^ 64) :
    x &&& (2 ^ 64 - 2 ^ 12) = 2 ^ 12 * (x / 2 ^ 12) := by
  have hmask : (2 : Nat) ^ 64 - 2 ^ 12 = (2 ^ 52 - 1) <<< 12 := by
    rw [Nat.shiftLeft_eq]
    norm_num
  have hrhs : 2 ^ 12 * (x / 2 ^ 12) = (x >>> 12) <<< 12 := by
    rw [Nat.shiftLeft_eq, Nat.shiftRight_eq_div_pow]
    ring
  rw [hmask, hrhs]
  apply Nat.eq_of_testBit_eq
  intro i
  simp only [Nat.testBit_and, Nat.testBit_shiftLeft, Nat.testBit_shiftRight,
    Nat.testBit_two_pow_sub_one]
  rcases Nat.lt_or_ge i 12 with h12 | h12
  · have hni : ¬(i ≥ 12) := by omega
    simp [hni]
  · rcases Nat.lt_or_ge i 64 with h64 | h64
    · have h2 : i - 12 < 52 := by omega
      have h3 : 12 + (i - 12) = i := by omega
      simp [h12, h2, h3]
    · have hxl : x.testBit i = false :=
        Nat.testBit_lt_two_pow
          (lt_of_lt_of_le hx (Nat.pow_le_pow_right (by norm_num) h64))
      have h2 : ¬(i - 12 < 52) := by omega
      have h3 : 12 + (i - 12) = i := by omega
      simp [h2, h3, hxl]

/-- The page-rounding expression equals arithmetic round-up for every
in-range length. -/
theorem align_to_page_eq (len : Nat) (h : len ≤ MAX_ALLOCATION) :
    align_to_page len = 2 ^ 12 * ((len + 4095) / 2 ^ 12) := by
  have h1 : len + 4095 < 2 ^ 64 := by
    unfold MAX_ALLOCATION at h
    omega
  unfold align_to_page PAGE_SIZE USIZE_MOD
  rw [show (4096 : Nat) - 1 = 4095 from rfl, Nat.mod_eq_of_lt h1,
    show (2 : Nat) ^ 64 - 4096 = 2 ^ 64 - 2 ^ 12 by norm_num]
  exact land_high_mask _ h1

/-- The rounded size is a page multiple, at least the length, and at
most MAX_ALLOCATION, for every in-range length. -/
theorem align_to_page_spec (len : Nat) (h : len ≤ MAX_ALLOCATION) :
    PAGE_SIZE ∣ align_to_page len ∧ len ≤ align_to_page len ∧
      align_to_page len ≤ MAX_ALLOCATION := by
  rw [align_to_page_eq len h]
  unfold MAX_ALLOCATION at h ⊢
  refine ⟨⟨(len + 4095) / 2 ^ 12, by norm_num [PAGE_SIZE]⟩, by omega, by omega⟩

/-- Forming the page-aligned layout always succeeds for sizes within
the isize bound. -/
theorem from_size_align_page (size : Nat)
    (h : size ≤ ISIZE_MAX - (PAGE_SIZE - 1)) :
    Layout.from_size_align size PAGE_SIZE =
      some { size := size, align := PAGE_SIZE } := by
  unfold Layout.from_size_align
  rw [if_pos]
  exact ⟨by norm_num [PAGE_SIZE], by decide, h⟩

/-- Inversion of a successful UmaBuffer::new: the length was in range
and the buffer records the requested length, the page layout, and the
allocator's nonzero address and contents. -/
theorem new_ok_inversion (alloc_fn : Allocator) (len : Nat) (b : UmaBuffer)
    (h : UmaBuffer.new alloc_fn len = Except.ok b) :
    1 ≤ len ∧ len ≤ MAX_ALLOCATION ∧ b.len = len ∧
      b.layout = { size := align_to_page len, align := PAGE_SIZE } ∧
      b.addr = (alloc_fn { size := align_to_page len, align := PAGE_SIZE }).addr ∧
      b.mem = (alloc_fn { size := align_to_page len, align := PAGE_SIZE }).mem ∧
      b.addr ≠ 0 := by
  unfold UmaBuffer.new at h
  by_cases h0 : len = 0
  · simp [h0] at h
  by_cases hmax : MAX_ALLOCATION < len
  · simp [h0, hmax] at h
  have hle : len ≤ MAX_ALLOCATION := Nat.not_lt.mp hmax
  have hsize : align_to_page len ≤ ISIZE_MAX - (PAGE_SIZE - 1) := by
    have h2 := (align_to_page_spec len hle).2.2
    unfold MAX_ALLOCATION at h2
    unfold ISIZE_MAX PAGE_SIZE
    omega
  rw [if_neg h0, if_neg hmax, from_size_align_page _ hsize] at h
  by_cases haddr :
      (alloc_fn { size := align_to_page len, align := PAGE_SIZE }).addr = 0
  · simp [haddr] at h
  · simp only [if_neg haddr, Except.ok.injEq] at h
    subst h
    exact ⟨Nat.one_le_iff_ne_zero.mpr h0, hle, rfl, rfl, rfl, rfl, haddr⟩

/-- Reduction of UmaBuffer::new on an in-range length: only the
allocator's null check remains. -/
theorem new_valid_eq (alloc_fn : Allocator) (len : Nat) (h0 : len ≠ 0)
    (hle : len ≤ MAX_ALLOCATION) :
    UmaBuffer.new alloc_fn len =
      if (alloc_fn { size := align_to_page len, align := PAGE_SIZE }).addr = 0 then
        Except.error (Error.internal "memory allocation failed")
      else
        Except.ok
          { addr := (alloc_fn { size := align_to_page len, align := PAGE_SIZE }).addr
            len := len
            layout := { size := align_to_page len, align := PAGE_SIZE }
            mem := (alloc_fn { size := align_to_page len, align := PAGE_SIZE }).mem } := by
  have hsize : align_to_page len ≤ ISIZE_MAX - (PAGE_SIZE - 1) := by
    have h2 := (align_to_page_spec len hle).2.2
    unfold MAX_ALLOCATION at h2
    unfold ISIZE_MAX PAGE_SIZE
    omega
  unfold UmaBuffer.new
  rw [if_neg h0, if_neg (Nat.not_lt.mpr hle), from_size_align_page _ hsize]

/-- Inversion of a successful UmaBuffer::zeroed: it is a successful new
whose contents were overwritten with zeros on exactly the logical
length. -/
theorem zeroed_ok_inversion (alloc_fn : Allocator) (len : Nat) (b : UmaBuffer)
    (h : UmaBuffer.zeroed alloc_fn len = Except.ok b) :
    ∃ b0, UmaBuffer.new alloc_fn len = Except.ok b0 ∧
      b.addr = b0.addr ∧ b.len = b0.len ∧ b.layout = b0.layout ∧
      b.mem = fun i => if i < b0.len then 0 else b0.mem i := by
  unfold UmaBuffer.zeroed at h
  cases hn : UmaBuffer.new alloc_fn len with
  | error e => rw [hn] at h; exact absurd h (by simp)
  | ok b0 =>
      rw [hn] at h
      simp only [Except.ok.injEq] at h
      subst h
      exact ⟨b0, rfl, rfl, rfl, rfl, rfl⟩

/-- C4: allocation fails with InvalidInput exactly for length 0 or
length above 16 GiB, and any in-range length (the maximum included)
succeeds whenever the allocator returns a non-null address; no other
error kind arises for out-of-range input. -/
theorem new_invalid_input_iff (alloc_fn : Allocator) (len : Nat) :
    (newIsInvalidInput (UmaBuffer.new alloc_fn len) = true ↔
      (len = 0 ∨ MAX_ALLOCATION < len)) ∧
    ((len ≠ 0 ∧ len ≤ MAX_ALLOCATION ∧
        (alloc_fn { size := align_to_page len, align := PAGE_SIZE }).addr ≠ 0) →
      newIsOk (UmaBuffer.new alloc_fn len) = true) := by
  by_cases h0 : len = 0
  · constructor
    · simp [UmaBuffer.new, h0, newIsInvalidInput]
    · intro hv
      exact absurd h0 hv.1
  by_cases hmax : MAX_ALLOCATION < len
  · constructor
    · simp [UmaBuffer.new, h0, hmax, newIsInvalidInput]
    · intro hv
      exact absurd hmax (Nat.not_lt.mpr hv.2.1)
  have hle : len ≤ MAX_ALLOCATION := Nat.not_lt.mp hmax
  rw [new_valid_eq alloc_fn len h0 hle]
  constructor
  · by_cases haddr :
        (alloc_fn { size := align_to_page len, align := PAGE_SIZE }).addr = 0 <;>
      simp [haddr, newIsInvalidInput, h0, hmax]
  · intro hv
    rw [if_neg hv.2.2]
    rfl

/-- An allocator that returns an address equal to the requested
alignment, with all allocated bytes initially 1 (uninitialized memory
is modelled as arbitrary nonzero contents). -/
def alignedAlloc : Allocator :=
  fun l => { addr := l.align, mem := fun _ => 1 }

/-- C4 witness: length 0 and 16 GiB + 1 fail with InvalidInput, and
length exactly 16 GiB succeeds with the non-null allocator. -/
theorem new_invalid_input_iff_witness :
    newIsInvalidInput (UmaBuffer.new alignedAlloc 0) = true ∧
    newIsInvalidInput (UmaBuffer.new alignedAlloc 17179869185) = true ∧
    newIsOk (UmaBuffer.new alignedAlloc 17179869184) = true :=
  ⟨(new_invalid_input_iff alignedAlloc 0).1.mpr (Or.inl rfl),
   (new_invalid_input_iff alignedAlloc 17179869185).1.mpr
     (Or.inr (by norm_num [MAX_ALLOCATION])),
   (new_invalid_input_iff alignedAlloc 17179869184).2
     ⟨by norm_num, by norm_num [MAX_ALLOCATION], by decide⟩⟩

/-- C5: a successfully allocated buffer has the requested logical
length, a page-multiple allocated size at least that length, and a
page-aligned start address (given the allocator honors the layout's
alignment); and these are preserved by copy_from_slice and hold for
zeroed buffers as well. -/
theorem uma_buffer_invariants (alloc_fn : Allocator)
    (hA : ∀ l, (alloc_fn l).addr % l.align = 0) (len : Nat) (b : UmaBuffer)
    (h : UmaBuffer.new alloc_fn len = Except.ok b) :
    (b.len = len ∧ b.allocated_size % PAGE_SIZE = 0 ∧
      len ≤ b.allocated_size ∧ b.is_aligned = true) ∧
    (∀ src, (b.copy_from_slice src).2.len = len ∧
      (b.copy_from_slice src).2.allocated_size = b.allocated_size ∧
      (b.copy_from_slice src).2.is_aligned = true) ∧
    (∀ b2, UmaBuffer.zeroed alloc_fn len = Except.ok b2 →
      b2.len = len ∧ b2.allocated_size % PAGE_SIZE = 0 ∧
        len ≤ b2.allocated_size ∧ b2.is_aligned = true) := by
  obtain ⟨h1, hle, hblen, hblay, hbaddr, hbmem, hbne⟩ :=
    new_ok_inversion alloc_fn len b h
  have hpage := align_to_page_spec len hle
  have hsz : b.allocated_size = align_to_page len := by
    rw [UmaBuffer.allocated_size, hblay]
  have halign : b.is_aligned = true := by
    have := hA { size := align_to_page len, align := PAGE_SIZE }
    simp only [UmaBuffer.is_aligned, hbaddr, beq_iff_eq]
    exact this
  have hcore : b.len = len ∧ b.allocated_size % PAGE_SIZE = 0 ∧
      len ≤ b.allocated_size ∧ b.is_aligned = true := by
    refine ⟨hblen, ?_, ?_, halign⟩
    · rw [hsz]
      exact Nat.dvd_iff_mod_eq_zero.mp hpage.1
    · rw [hsz]
      exact hpage.2.1
  refine ⟨hcore, fun src => ?_, fun b2 h2 => ?_⟩
  · unfold UmaBuffer.copy_from_slice
    split <;>
      simp [UmaBuffer.allocated_size, UmaBuffer.is_aligned, hblen, halign,
        UmaBuffer.is_aligned] <;>
      simp_all [UmaBuffer.is_aligned, UmaBuffer.allocated_size]
  · obtain ⟨b0, hn0, ha0, hl0, hlay0, hm0⟩ := zeroed_ok_inversion alloc_fn len b2 h2
    rw [hn0] at h
    cases h
    exact ⟨hl0.trans hblen, by
        rw [UmaBuffer.allocated_size, hlay0, ← UmaBuffer.allocated_size, hsz]
        exact Nat.dvd_iff_mod_eq_zero.mp hpage.1, by
        rw [UmaBuffer.allocated_size, hlay0, ← UmaBuffer.allocated_size, hsz]
        exact hpage.2.1, by
        simp only [UmaBuffer.is_aligned, ha0]
        simpa only [UmaBuffer.is_aligned, hbaddr] using halign⟩

/-- A concrete buffer: the result of allocating 100 bytes through
alignedAlloc. -/
def bufferHundred : UmaBuffer :=
  { addr := 4096
    len := 100
    layout := { size := 4096, align := 4096 }
    mem := fun _ => 1 }

/-- C5 witness: the construction invariants at the concrete length
100. -/
theorem uma_buffer_invariants_witness :
    bufferHundred.len = 100 ∧ bufferHundred.allocated_size % PAGE_SIZE = 0 ∧
      100 ≤ bufferHundred.allocated_size ∧ bufferHundred.is_aligned = true :=
  (uma_buffer_invariants alignedAlloc (fun l => Nat.mod_self l.align)
    100 bufferHundred rfl).1

/-- C6: copy_from_slice fails with InvalidInput exactly when the source
is longer than the logical length, leaving the buffer unchanged; for a
source of the logical length or shorter it succeeds, the first
src.length bytes equal the source, and the remaining bytes and the
logical length are unchanged. -/
theorem copy_from_slice_spec (b : UmaBuffer) (src : List Nat) :
    (copyIsInvalidInput (b.copy_from_slice src).1 = true ↔
      b.len < src.length) ∧
    (b.len < src.length → (b.copy_from_slice src).2 = b) ∧
    (src.length ≤ b.len →
      (b.copy_from_slice src).1 = Except.ok () ∧
      (b.copy_from_slice src).2.len = b.len ∧
      (∀ i, i < src.length → (b.copy_from_slice src).2.mem i = src.getD i 0) ∧
      (∀ i, src.length ≤ i → (b.copy_from_slice src).2.mem i = b.mem i)) := by
  unfold UmaBuffer.copy_from_slice
  by_cases hlt : b.len < src.length
  · refine ⟨by simp [hlt, copyIsInvalidInput], by simp [hlt], fun hle => ?_⟩
    omega
  · refine ⟨by simp [hlt, copyIsInvalidInput], fun h => absurd h hlt,
      fun hle => ⟨by simp [hlt], by simp [hlt], fun i hi => ?_, fun i hi => ?_⟩⟩
    · simp [hlt, hi]
    · simp [hlt, Nat.not_lt.mpr hi]

/-- C6 witness: copying [9,8,7] into the 100-byte buffer succeeds, the
first byte becomes 9, byte 3 keeps its old value 1, and a 101-byte
source fails with InvalidInput. -/
theorem copy_from_slice_spec_witness :
    (bufferHundred.copy_from_slice [9, 8, 7]).1 = Except.ok () ∧
    (bufferHundred.copy_from_slice [9, 8, 7]).2.mem 0 = 9 ∧
    (bufferHundred.copy_from_slice [9, 8, 7]).2.mem 3 = 1 ∧
    copyIsInvalidInput
      (bufferHundred.copy_from_slice (List.replicate 101 0)).1 = true := by
  have h := copy_from_slice_spec bufferHundred [9, 8, 7]
  have hvalid := h.2.2 (by decide)
  refine ⟨hvalid.1, ?_, ?_,
    (copy_from_slice_spec bufferHundred (List.replicate 101 0)).1.mpr (by simp [bufferHundred])⟩
  · simpa using hvalid.2.2.1 0 (by decide)
  · simpa using hvalid.2.2.2 3 (by decide)

/-- C10: every successfully constructed buffer (new or zeroed) is never
empty: is_empty is false and the logical length is positive, and this
persists under copy_from_slice (which never changes the length). -/
theorem uma_buffer_never_empty (alloc_fn : Allocator) (len : Nat) (b : UmaBuffer)
    (h : UmaBuffer.new alloc_fn len = Except.ok b ∨
      UmaBuffer.zeroed alloc_fn len = Except.ok b) :
    b.is_empty = false ∧ 0 < b.len ∧
      ∀ src, (b.copy_from_slice src).2.is_empty = false ∧
        0 < (b.copy_from_slice src).2.len := by
  have hpos : 0 < b.len := by
    rcases h with hn | hz
    · obtain ⟨h1, _, hblen, _⟩ := new_ok_inversion alloc_fn len b hn
      omega
    · obtain ⟨b0, hn0, _, hl0, _⟩ := zeroed_ok_inversion alloc_fn len b hz
      obtain ⟨h1, _, hblen, _⟩ := new_ok_inversion alloc_fn len b0 hn0
      omega
  have hemp : b.is_empty = false := by
    simp only [UmaBuffer.is_empty, beq_eq_false_iff_ne, ne_eq]
    omega
  refine ⟨hemp, hpos, fun src => ?_⟩
  have hlen : (b.copy_from_slice src).2.len = b.len := by
    unfold UmaBuffer.copy_from_slice
    split <;> rfl
  constructor
  · simp only [UmaBuffer.is_empty, hlen, beq_eq_false_iff_ne, ne_eq]
    omega
  · omega

/-- C10 witness: the concrete 100-byte buffer reports nonempty. -/
theorem uma_buffer_never_empty_witness :
    bufferHundred.is_empty = false ∧ 0 < bufferHundred.len :=
  ⟨(uma_buffer_never_empty alignedAlloc 100 bufferHundred (Or.inl rfl)).1,
   (uma_buffer_never_empty alignedAlloc 100 bufferHundred (Or.inl rfl)).2.1⟩

/-- C2 counterexample: zeroed does NOT zero-fill the full allocated
region.  Allocating 5 bytes (page-rounded to 4096) from an allocator
whose fresh memory is all 1s leaves byte 5, inside the allocated
region, at 1. -/
theorem zeroed_does_not_zero_slack :
    ¬ ∀ b, UmaBuffer.zeroed alignedAlloc 5 = Except.ok b →
        ∀ i, i < b.allocated_size → b.mem i = 0 := by
  intro hclaim
  have h5 := hclaim
    { addr := 4096
      len := 5
      layout := { size := 4096, align := 4096 }
      mem := fun i => if i < 5 then 0 else 1 }
    rfl 5 (by norm_num [UmaBuffer.allocated_size])
  norm_num at h5

/-- C2 (amended): zeroed zero-fills exactly the logical length: the
resulting buffer has the requested length and every byte in [0, L)
reads as 0 (as_slice is all zeros); bytes in the page-rounded slack
beyond L keep the allocator's contents. -/
theorem zeroed_logical_prefix_zero (alloc_fn : Allocator) (len : Nat)
    (b : UmaBuffer) (h : UmaBuffer.zeroed alloc_fn len = Except.ok b) :
    b.len = len ∧ (∀ i, i < len → b.mem i = 0) ∧
      b.as_slice = List.replicate len 0 := by
  obtain ⟨b0, hn, ha, hl, hlay, hm⟩ := zeroed_ok_inversion alloc_fn len b h
  obtain ⟨h1, hle, hblen, _⟩ := new_ok_inversion alloc_fn len b0 hn
  have hlen : b.len = len := hl.trans hblen
  have hzero : ∀ i, i < len → b.mem i = 0 := by
    intro i hi
    rw [hm]
    simp [hblen ▸ hi]
  refine ⟨hlen, hzero, ?_⟩
  rw [UmaBuffer.as_slice, hlen]
  refine List.eq_replicate_iff.mpr ⟨by simp, fun x hx => ?_⟩
  simp only [List.mem_map, List.mem_range] at hx
  obtain ⟨i, hi, hxi⟩ := hx
  rw [← hxi]
  exact hzero i hi

/-- C2 witness: zeroing a 5-byte buffer gives length 5 with byte 0
reading 0. -/
theorem zeroed_logical_prefix_zero_witness :
    ({ addr := 4096
       len := 5
       layout := { size := 4096, align := 4096 }
       mem := fun i => if i < 5 then 0 else 1 } : UmaBuffer).len = 5 ∧
    ({ addr := 4096
       len := 5
       layout := { size := 4096, align := 4096 }
       mem := fun i => if i < 5 then 0 else 1 } : UmaBuffer).mem 0 = 0 :=
  ⟨(zeroed_logical_prefix_zero alignedAlloc 5 _ rfl).1,
   (zeroed_logical_prefix_zero alignedAlloc 5 _ rfl).2.1 0 (by decide)⟩

/-- Helper invariant: from a freshly created live handle with zero
releases, every reachable configuration is either still live with zero
releases or dropped with drop_release_count raw 0 releases. -/
theorem handle_reachable_cases (raw : Nat) (e : HandleExec)
    (he : Relation.ReflTransGen HandleStep ⟨HandleState.live raw, 0⟩ e) :
    (e.st = HandleState.live raw ∧ e.releases = 0) ∨
      (e.st = HandleState.dropped raw ∧ e.releases = drop_release_count raw 0) := by
  induction he with
  | refl => exact Or.inl ⟨rfl, rfl⟩
  | tail hsteps hstep ih =>
    rcases ih with ⟨hst, hrel⟩ | ⟨hst, hrel⟩ <;> cases hstep <;>
      simp_all

/-- C1 counterexample: the raw reading t = 0 (and p = 0) is NOT projected
to absent: the source filters with the half-open Rust range 0.0..150.0
(resp. 0.0..500.0), which contains 0, so the projection yields Some(0). -/
theorem temperature_zero_not_absent :
    (convert_raw_stats rawBoundaryZero).temperature_celsius = some 0 ∧
    (convert_raw_stats rawBoundaryZero).power_watts = some 0 := by
  decide

/-- C1 (amended): for every raw snapshot with temperature reading t and
power reading p, the projection passes temperature through as Some(t)
iff 0 ≤ t < 150 and power as Some(p) iff 0 ≤ p < 500, and projects to
absent otherwise; the upper boundaries t = 150 and p = 500 are absent,
while t = 0 and p = 0 pass through. -/
theorem convert_filter_ranges (raw : AfterburnerRawStats) (t p : ℚ)
    (ht : raw.temperature = some t) (hp : raw.power = some p) :
    ((convert_raw_stats raw).temperature_celsius = some t ↔ (0 ≤ t ∧ t < 150)) ∧
    (¬(0 ≤ t ∧ t < 150) → (convert_raw_stats raw).temperature_celsius = none) ∧
    ((convert_raw_stats raw).power_watts = some p ↔ (0 ≤ p ∧ p < 500)) ∧
    (¬(0 ≤ p ∧ p < 500) → (convert_raw_stats raw).power_watts = none) := by
  refine ⟨?_, ?_, ?_, ?_⟩ <;>
    by_cases h1 : 0 ≤ t ∧ t < 150 <;>
    by_cases h2 : 0 ≤ p ∧ p < 500 <;>
    simp [convert_raw_stats, Option.filter, ht, hp, h1, h2]

/-- C1 witness: at the concrete boundary snapshot with t = 150 and
p = 500, both projected fields are absent. -/
theorem convert_filter_ranges_witness :
    (convert_raw_stats rawBoundaryHigh).temperature_celsius = none ∧
    (convert_raw_stats rawBoundaryHigh).power_watts = none :=
  ⟨(convert_filter_ranges rawBoundaryHigh 150 500 rfl rfl).2.1 (by decide),
   (convert_filter_ranges rawBoundaryHigh 150 500 rfl rfl).2.2.2 (by decide)⟩

/-- C8: for every raw snapshot the projected utilization lies in [0,100];
in particular raw utilization 150 projects to 100 and -10 projects to 0. -/
theorem utilization_clamped (raw : AfterburnerRawStats) :
    (0 ≤ (convert_raw_stats raw).utilization_percent ∧
      (convert_raw_stats raw).utilization_percent ≤ 100) ∧
    (convert_raw_stats rawUtilHigh).utilization_percent = 100 ∧
    (convert_raw_stats rawUtilLow).utilization_percent = 0 := by
  refine ⟨?_, by decide, by decide⟩
  simp only [convert_raw_stats, f64_clamp]
  split_ifs with h1 h2
  · exact ⟨le_refl 0, by norm_num⟩
  · exact ⟨by norm_num, le_refl 100⟩
  · exact ⟨not_lt.mp h1, le_of_not_lt h2⟩

/-- C9: capacity_used_percent equals active/capacity*100 when capacity
is nonzero, equals exactly 0 when capacity is 0, and at the concrete
example (active 10, capacity 23) lies within 0.01 of 43.478. -/
theorem capacity_used_percent_spec (s : AfterburnerStats) :
    (s.streams_capacity = 0 → s.capacity_used_percent = 0) ∧
    (s.streams_capacity ≠ 0 →
      s.capacity_used_percent =
        ((s.streams_active : ℚ) / (s.streams_capacity : ℚ)) * 100) ∧
    |statsTenOfTwentyThree.capacity_used_percent - 43.478| ≤ 0.01 := by
  refine ⟨fun h => ?_, fun h => ?_,
    by norm_num [AfterburnerStats.capacity_used_percent, statsTenOfTwentyThree, abs_le]⟩
  · simp [AfterburnerStats.capacity_used_percent, h]
  · simp [AfterburnerStats.capacity_used_percent, h]

/-- C9 witness: with capacity 0 and active 10 the percentage is exactly
0, and with capacity 23 and active 10 it is 1000/23. -/
theorem capacity_used_percent_witness :
    ({ statsTenOfTwentyThree with streams_capacity := 0 }
        : AfterburnerStats).capacity_used_percent = 0 ∧
    statsTenOfTwentyThree.capacity_used_percent = (10 : ℚ) / 23 * 100 :=
  ⟨(capacity_used_percent_spec _).1 rfl,
   (capacity_used_percent_spec statsTenOfTwentyThree).2.1 (by decide)⟩

/-- C3: the property parse is total (never fails) and each field falls
back independently: a missing or non-convertible StreamsActive gives 0,
StreamsCapacity gives the nominal capacity 23 (not zero), missing float
keys give 0.0 for utilization and throughput and absent for temperature
and power; the empty property set yields exactly the all-default
snapshot. -/
theorem parse_properties_defaults (properties : CFDict) :
    (get_u32_property properties "StreamsActive" = none →
      (parse_afterburner_properties properties).streams_active = 0) ∧
    (get_u32_property properties "StreamsCapacity" = none →
      (parse_afterburner_properties properties).streams_capacity = 23) ∧
    (get_f64_property properties "Utilization" = none →
      (parse_afterburner_properties properties).utilization = 0) ∧
    (get_f64_property properties "ThroughputFPS" = none →
      (parse_afterburner_properties properties).throughput_fps = 0) ∧
    (get_f64_property properties "Temperature" = none →
      (parse_afterburner_properties properties).temperature = none) ∧
    (get_f64_property properties "PowerWatts" = none →
      (parse_afterburner_properties properties).power = none) ∧
    parse_afterburner_properties [] =
      { streams_active := 0
        streams_capacity := 23
        utilization := 0
        throughput_fps := 0
        temperature := none
        power := none } := by
  refine ⟨fun h => ?_, fun h => ?_, fun h => ?_, fun h => ?_, fun h => ?_,
    fun h => ?_, by decide⟩ <;>
    simp [parse_afterburner_properties, h]

/-- C3 witness: the empty property dictionary parses to capacity 23 and
zero active streams. -/
theorem parse_properties_defaults_witness :
    (parse_afterburner_properties []).streams_capacity = 23 ∧
    (parse_afterburner_properties []).streams_active = 0 :=
  ⟨(parse_properties_defaults []).2.1 rfl,
   (parse_properties_defaults []).1 rfl⟩

/-- C7: for any handle produced by find_service_by_name (which owns a
nonzero raw reference), every configuration reachable in the handle's
step relation is either still live with zero releases or dropped with
exactly one release: release fires exactly once per lifetime, never
twice, and a dropped state with zero releases is unreachable; moreover
the drop of a zero-sentinel handle is a release no-op. -/
theorem handle_release_exactly_once (reg : String → Option Nat) (name : String)
    (h0 : HandleState) (hfind : find_service_by_name reg name = some h0) :
    (∀ e, Relation.ReflTransGen HandleStep ⟨h0, 0⟩ e →
      ∃ raw, raw ≠ 0 ∧
        ((e.st = HandleState.live raw ∧ e.releases = 0) ∨
          (e.st = HandleState.dropped raw ∧ e.releases = 1))) ∧
    (∀ c e, HandleStep ⟨HandleState.live 0, c⟩ e → e.releases = c) := by
  constructor
  · obtain ⟨service, hreg, hs0, hlive⟩ :
        ∃ service, reg name = some service ∧ service ≠ 0 ∧
          h0 = HandleState.live service := by
      unfold find_service_by_name at hfind
      cases hreg : reg name with
      | none => simp [hreg] at hfind
      | some service =>
          rw [hreg] at hfind
          by_cases hz : service = 0
          · simp [hz] at hfind
          · simp [hz] at hfind
            exact ⟨service, rfl, hz, hfind.symm⟩
    subst hlive
    intro e he
    refine ⟨service, hs0, ?_⟩
    have h := handle_reachable_cases service e he
    rwa [show drop_release_count service 0 = 1 by
      simp [drop_release_count, hs0]] at h
  · intro c e hstep
    cases hstep with
    | query => rfl
    | drop => simp [drop_release_count]

/-- C7 witness: with a registry that reports service id 7, the handle
found for the first class name reaches, after one drop step, the dropped
state with exactly one release fired. -/
theorem handle_release_exactly_once_witness :
    ∃ raw, raw ≠ 0 ∧
      (((HandleExec.mk (HandleState.dropped 7) 1).st = HandleState.live raw ∧
          (HandleExec.mk (HandleState.dropped 7) 1).releases = 0) ∨
        ((HandleExec.mk (HandleState.dropped 7) 1).st = HandleState.dropped raw ∧
          (HandleExec.mk (HandleState.dropped 7) 1).releases = 1)) := by
  refine (handle_release_exactly_once (fun _ => some 7) "AppleProResAccelerator"
      (HandleState.live 7) rfl).1 (HandleExec.mk (HandleState.dropped 7) 1) ?_
  have h := Relation.ReflTransGen.single (HandleStep.drop 7 0)
  simpa [drop_release_count] using h

end Manzana
